import Mathlib

/-!
# Hospital appointment system: a shallow embedding

A shallow embedding of the slot-availability and booking engine of the
hospital-management Flask application (`app.py`, `models.py`): the data model
(`Patient`, `Doctor`, `DoctorAvailability`, `Appointment`), the booking
transaction (`book_appointment` POST handler), the availability grid
(`book_appointment` GET handler), the lifecycle transitions
(`cancel_appointment`, `mark_complete`) and the availability upsert
(`provide_availability`'s per-day body). Database tables become Lists, the
SQLAlchemy queries become the corresponding List operations
(`filter_by(...).first()` is `List.find?`, `filter(...).all()` is
`List.filter`, the dict comprehension over a query result is a last-wins
lookup), and each route handler becomes a function from state to
(result, state).
-/

namespace Hospital

/-- A calendar date, as in Python's `datetime.date`. -/
structure Date where
  year : Nat
  month : Nat
  day : Nat
deriving DecidableEq, Repr

/-- A time of day, as in Python's `datetime.time` (`hour`, `minute`, `second`). -/
structure Time where
  hour : Nat
  minute : Nat
  second : Nat
deriving DecidableEq, Repr

/-- `models.Patient`: the columns the core logic reads. -/
structure Patient where
  id : Nat
  name : String
  email : String
  is_blacklisted : Bool
deriving DecidableEq, Repr

/-- `models.Doctor`: the columns the core logic reads. -/
structure Doctor where
  id : Nat
  name : String
  email : String
  is_blacklisted : Bool
deriving DecidableEq, Repr

/-- `models.DoctorAvailability`: one row of the `doctor_availability` table.
The surrogate `id` column is never read by the application logic, so it is
omitted. -/
structure DoctorAvailability where
  doctor_id : Nat
  date : Date
  morning_available : Bool
  evening_available : Bool
deriving DecidableEq, Repr

/-- `models.Appointment`: one row of the `appointments` table. `status` is a
string column holding `"Booked"`, `"Cancelled"` or `"Completed"`. -/
structure Appointment where
  id : Nat
  patient_id : Nat
  doctor_id : Nat
  date : Date
  time : Time
  status : String
deriving DecidableEq, Repr

/-- The durable state: the database tables, plus the autoincrement counter
for `appointments.id`. -/
structure ClinicState where
  patients : List Patient
  doctors : List Doctor
  availability : List DoctorAvailability
  appointments : List Appointment
  nextApptId : Nat
deriving DecidableEq, Repr

/-- `Doctor.query.get(doctor_id)` / `db.get_or_404(Doctor, doctor_id)`. -/
def findDoctor (s : ClinicState) (doctorId : Nat) : Option Doctor :=
  s.doctors.find? (fun d => d.id == doctorId)

/-- `DoctorAvailability.query.filter_by(doctor_id=..., date=...).first()`
(app.py line 232). -/
def findAvail (s : ClinicState) (doctorId : Nat) (d : Date) :
    Option DoctorAvailability :=
  s.availability.find? (fun a => a.doctor_id == doctorId && a.date == d)

/-- The `is_doctor_working` computation of app.py lines 233-239: the shift
flags are consulted by the hour of the submitted time alone (`8` selects the
morning flag, `16` the evening flag), with no record meaning not working. -/
def is_doctor_working (avail : Option DoctorAvailability) (t : Time) : Bool :=
  match avail with
  | none => false
  | some a =>
      if t.hour == 8 && a.morning_available then true
      else if t.hour == 16 && a.evening_available then true
      else false

/-- `Appointment.query.filter_by(doctor_id=..., date=..., time=...,
status='Booked').first()` (app.py lines 246-250). -/
def findBooked (s : ClinicState) (doctorId : Nat) (d : Date) (t : Time) :
    Option Appointment :=
  s.appointments.find?
    (fun a => a.doctor_id == doctorId && a.date == d && a.time == t &&
      a.status == "Booked")

/-- The distinguishable outcomes of the booking POST handler, one per exit
path of app.py lines 214-267. -/
inductive BookResult where
  | doctorNotFound
  | doctorBlacklisted
  | doctorNotAvailable
  | slotTaken
  | booked (apptId : Nat)
deriving DecidableEq, Repr

/-- The spec's `DoctorUnavailable` class of outcomes: the doctor is
blacklisted or not working that shift. -/
def BookResult.isDoctorUnavailable : BookResult → Bool
  | .doctorBlacklisted => true
  | .doctorNotAvailable => true
  | _ => false

/-- The insert of app.py lines 256-265: a new `Appointment` row with status
`'Booked'`, committed to the ledger. -/
def book_insert (s : ClinicState) (patientId doctorId : Nat) (d : Date)
    (t : Time) : ClinicState :=
  { s with
    appointments := s.appointments ++
      [⟨s.nextApptId, patientId, doctorId, d, t, "Booked"⟩],
    nextApptId := s.nextApptId + 1 }

/-- The booking POST handler, app.py `book_appointment` lines 214-267, for a
patient principal and an already-parsed slot `(d, t)`: look up the doctor
(404 when absent), reject a blacklisted doctor, reject when
`is_doctor_working` is false, reject when a `'Booked'` row for the exact
(doctor, date, time) already exists, and otherwise insert the appointment. -/
def book_appointment (s : ClinicState) (patientId doctorId : Nat) (d : Date)
    (t : Time) : BookResult × ClinicState :=
  match findDoctor s doctorId with
  | none => (.doctorNotFound, s)
  | some doc =>
    if doc.is_blacklisted then (.doctorBlacklisted, s)
    else if !(is_doctor_working (findAvail s doctorId d) t) then
      (.doctorNotAvailable, s)
    else
      match findBooked s doctorId d t with
      | some _ => (.slotTaken, s)
      | none => (.booked s.nextApptId, book_insert s patientId doctorId d t)

/-- An acting principal's role, the value held by `session['role']`. -/
inductive Role where
  | patient
  | doctor
deriving DecidableEq, Repr

/-- An acting principal: the session role together with `current_user.id`. -/
structure Principal where
  role : Role
  id : Nat
deriving DecidableEq, Repr

/-- `Appointment.query.get(appt_id)` / `db.get_or_404(Appointment, appt_id)`. -/
def findAppt (s : ClinicState) (apptId : Nat) : Option Appointment :=
  s.appointments.find? (fun a => a.id == apptId)

/-- `appt.status = st; db.session.commit()`: the row with the given primary
key gets the new status, every other row is untouched. -/
def setStatus (s : ClinicState) (apptId : Nat) (st : String) : ClinicState :=
  { s with
    appointments := s.appointments.map
      (fun a => if a.id == apptId then { a with status := st } else a) }

/-- The outcomes of the cancel handler, one per exit path of app.py lines
322-342. -/
inductive CancelResult where
  | notFound
  | forbidden
  | cancelled
deriving DecidableEq, Repr

/-- The cancel handler, app.py `cancel_appointment` lines 322-342: 404 when
the appointment is missing, `'Permission denied.'` unless the principal is
the owning patient (role patient, id = `patient_id`) or the owning doctor
(role doctor, id = `doctor_id`), and otherwise the status is set to
`'Cancelled'` unconditionally. -/
def cancel_appointment (s : ClinicState) (apptId : Nat) (p : Principal) :
    CancelResult × ClinicState :=
  match findAppt s apptId with
  | none => (.notFound, s)
  | some appt =>
    let is_patient_owner := p.role == .patient && appt.patient_id == p.id
    let is_doctor_owner := p.role == .doctor && appt.doctor_id == p.id
    if !(is_patient_owner || is_doctor_owner) then (.forbidden, s)
    else (.cancelled, setStatus s apptId "Cancelled")

/-- The outcomes of the mark-complete handler, one per exit path of app.py
lines 425-444. -/
inductive CompleteResult where
  | accessDenied
  | notFound
  | notYours
  | completed
deriving DecidableEq, Repr

/-- The mark-complete handler, app.py `mark_complete` lines 425-444: reject
a non-doctor role, 404 when the appointment is missing, reject a doctor who
does not own the appointment, and otherwise set the status to `'Completed'`
unconditionally. -/
def mark_complete (s : ClinicState) (apptId : Nat) (p : Principal) :
    CompleteResult × ClinicState :=
  if !(p.role == .doctor) then (.accessDenied, s)
  else
    match findAppt s apptId with
    | none => (.notFound, s)
    | some appt =>
      if !(appt.doctor_id == p.id) then (.notYours, s)
      else (.completed, setStatus s apptId "Completed")

/-- The per-day body of app.py `provide_availability` lines 547-565: query
the first record for (doctor, day); if present mutate its two flags in
place, otherwise add a fresh record carrying the two flags. `db.session.add`
appends the new row at the end of the table. -/
def upsertAvail (l : List DoctorAvailability) (doctorId : Nat) (d : Date)
    (m e : Bool) : List DoctorAvailability :=
  match l with
  | [] => [⟨doctorId, d, m, e⟩]
  | a :: rest =>
    if a.doctor_id == doctorId && a.date == d then
      { a with morning_available := m, evening_available := e } :: rest
    else a :: upsertAvail rest doctorId d m e

/-- The availability upsert for one (doctor, date), lifted to the state:
the `setAvailability(doctorId, date, morningOpen, eveningOpen)` operation of
the spec, as implemented by the loop body of `provide_availability`. -/
def setAvailability (s : ClinicState) (doctorId : Nat) (d : Date)
    (m e : Bool) : ClinicState :=
  { s with availability := upsertAvail s.availability doctorId d m e }

/-- The two fixed bookable instants, app.py line 275:
`standard_slots = [time(8, 0), time(16, 0)]`. -/
def standard_slots : List Time := [⟨8, 0, 0⟩, ⟨16, 0, 0⟩]

/-- One cell of the availability grid, app.py lines 313-316 (the grid stores
the slot time and `is_available`). -/
structure SlotCell where
  time : Time
  is_available : Bool
deriving DecidableEq, Repr

/-- One day of the availability grid, app.py line 299. -/
structure DayAvail where
  date : Date
  slots : List SlotCell
deriving DecidableEq, Repr

/-- The `is_working` computation of the grid, app.py lines 304-309: same
hour-keyed flag selection as the booking validation. -/
def cell_is_working (day_settings : Option DoctorAvailability) (t : Time) :
    Bool :=
  match day_settings with
  | none => false
  | some a =>
      if t.hour == 8 && a.morning_available then true
      else if t.hour == 16 && a.evening_available then true
      else false

/-- `avail_lookup = { a.date: a for a in avail_settings }` followed by
`avail_lookup.get(day)` (app.py lines 292, 298): a Python dict comprehension
keeps the last entry for a duplicated key. -/
def dict_lookup (l : List DoctorAvailability) (d : Date) :
    Option DoctorAvailability :=
  (l.filter (fun a => a.date == d)).getLast?

/-- The availability grid of app.py `book_appointment` lines 274-318 (the
GET branch), for an explicit horizon `date_range`: one batched read of the
`'Booked'` appointments in the horizon into `booked_slots`, one batched read
of the availability settings into `avail_lookup`, then the in-memory cross
product over days and `standard_slots` with
`is_available = is_working && !is_booked`. -/
def availability_grid (s : ClinicState) (doctorId : Nat)
    (date_range : List Date) : List DayAvail :=
  let existing_appts := s.appointments.filter
    (fun a => a.doctor_id == doctorId && date_range.contains a.date &&
      a.status == "Booked")
  let booked_slots := existing_appts.map (fun a => (a.date, a.time))
  let avail_settings := s.availability.filter
    (fun a => a.doctor_id == doctorId && date_range.contains a.date)
  date_range.map (fun day =>
    { date := day,
      slots := standard_slots.map (fun slot_time =>
        let is_booked := booked_slots.contains (day, slot_time)
        let is_working := cell_is_working (dict_lookup avail_settings day)
          slot_time
        { time := slot_time, is_available := is_working && !is_booked }) })

/-- The two fixed shifts of the spec's data model. -/
inductive Shift where
  | Morning
  | Evening
deriving DecidableEq, Repr

/-- The fixed start instant of each shift (Morning 08:00, Evening 16:00). -/
def Shift.startTime : Shift → Time
  | .Morning => ⟨8, 0, 0⟩
  | .Evening => ⟨16, 0, 0⟩

/-- The spec's `ShiftCalendar.isWorking(doctorId, date, shift)`: the stored
flag of the matching shift in the (first) AvailabilityRecord for that
(doctor, date), false when no record exists. -/
def isWorkingShift (s : ClinicState) (doctorId : Nat) (d : Date)
    (sh : Shift) : Bool :=
  match findAvail s doctorId d with
  | none => false
  | some a =>
    match sh with
    | .Morning => a.morning_available
    | .Evening => a.evening_available

/-- The spec's `isBooked` for a grid cell: a `'Booked'` appointment exists
for the (doctor, date, shift start time) triple. -/
def isBookedShift (s : ClinicState) (doctorId : Nat) (d : Date)
    (sh : Shift) : Bool :=
  s.appointments.any
    (fun a => a.doctor_id == doctorId && a.date == d &&
      a.time == sh.startTime && a.status == "Booked")

/-- The `'Booked'` rows sharing one (doctor, date, time) key. -/
def bookedAt (s : ClinicState) (doctorId : Nat) (d : Date) (t : Time) :
    List Appointment :=
  s.appointments.filter
    (fun a => a.doctor_id == doctorId && a.date == d && a.time == t &&
      a.status == "Booked")

/-- Two appointment rows that would violate slot exclusivity: both
`'Booked'` and sharing the (doctor, date, time) key. -/
def sameBookedSlot (a b : Appointment) : Prop :=
  a.status = "Booked" ∧ b.status = "Booked" ∧ a.doctor_id = b.doctor_id ∧
    a.date = b.date ∧ a.time = b.time

instance (a b : Appointment) : Decidable (sameBookedSlot a b) := by
  unfold sameBookedSlot; infer_instance

/-- The core exclusivity invariant: no two rows of the ledger are both
`'Booked'` for the same (doctor, date, time); Cancelled and Completed rows
may share a key freely. -/
def BookedUnique (s : ClinicState) : Prop :=
  s.appointments.Pairwise (fun a b => ¬ sameBookedSlot a b)

/-- At most one availability record per (doctor, date) key. -/
def AvailUniqueList (l : List DoctorAvailability) : Prop :=
  l.Pairwise (fun a b => ¬(a.doctor_id = b.doctor_id ∧ a.date = b.date))

/-- The availability records for one (doctor, date) key. -/
def availFor (l : List DoctorAvailability) (doctorId : Nat) (d : Date) :
    List DoctorAvailability :=
  l.filter (fun a => a.doctor_id == doctorId && a.date == d)

/-- One core operation, as dispatched by the route handlers. -/
inductive Op where
  | book (patientId doctorId : Nat) (d : Date) (t : Time)
  | cancel (apptId : Nat) (p : Principal)
  | complete (apptId : Nat) (p : Principal)
  | setAvail (doctorId : Nat) (d : Date) (m e : Bool)

/-- The state transition of one operation (results discarded). -/
def applyOp (s : ClinicState) : Op → ClinicState
  | .book pid did d t => (book_appointment s pid did d t).2
  | .cancel aid p => (cancel_appointment s aid p).2
  | .complete aid p => (mark_complete s aid p).2
  | .setAvail did d m e => setAvailability s did d m e

/-- A sequence of core operations, applied left to right. -/
def applyOps (s : ClinicState) (ops : List Op) : ClinicState :=
  ops.foldl applyOp s

/-- The validation gauntlet of the booking POST handler (app.py lines
214-254): doctor exists and is not blacklisted, `is_doctor_working` holds,
and no `'Booked'` row occupies the exact (doctor, date, time). -/
def passes_booking_validation (s : ClinicState) (doctorId : Nat) (d : Date)
    (t : Time) : Bool :=
  match findDoctor s doctorId with
  | none => false
  | some doc =>
    !doc.is_blacklisted && is_doctor_working (findAvail s doctorId d) t &&
      (findBooked s doctorId d t).isNone

/-- The check-then-act race of the booking handler: two concurrent requests
for the same slot both run the validation of app.py lines 214-254 against
the same snapshot `s` (neither has committed yet), then each commits its
insert (app.py lines 256-265) in turn. Nothing in the code or the schema
(models.py: no uniqueness constraint on (doctor_id, date, time, status))
re-checks at commit time. -/
def race_two_bookings (s : ClinicState) (p1 p2 doctorId : Nat) (d : Date)
    (t : Time) : ClinicState :=
  let ok1 := passes_booking_validation s doctorId d t
  let ok2 := passes_booking_validation s doctorId d t
  let s1 := if ok1 then book_insert s p1 doctorId d t else s
  if ok2 then book_insert s1 p2 doctorId d t else s1

/-- Toggling one patient's blacklist flag (the admin blacklist/whitelist
routes, app.py lines 794-814). -/
def setPatientBlacklist (s : ClinicState) (patientId : Nat) (b : Bool) :
    ClinicState :=
  { s with
    patients := s.patients.map
      (fun q => if q.id == patientId then { q with is_blacklisted := b }
        else q) }

/-- A state with no `'Booked'` rows at all: the ledger of `s` with every
`'Booked'` row dropped. -/
def dropBooked (s : ClinicState) : ClinicState :=
  { s with
    appointments := s.appointments.filter (fun a => !(a.status == "Booked")) }

/-- The seeded demo doctor (app.py line 843, fields the core reads). -/
def demo_doctor : Doctor := ⟨1, "Dr. Abcde", "abcde@hospital.com", false⟩

/-- The seeded demo patient (app.py line 854, fields the core reads). -/
def demo_patient : Patient := ⟨1, "John Doe", "john@test.com", false⟩

/-- The date of the spec's booking scenario, 2025-09-24. -/
def demo_date : Date := ⟨2025, 9, 24⟩

/-- A `'Booked'` morning appointment for the demo doctor and patient. -/
def demo_appt : Appointment := ⟨1, 1, 1, demo_date, ⟨8, 0, 0⟩, "Booked"⟩

/-- A state holding the demo appointment, with the doctor working the
morning shift of 2025-09-24. -/
def demo_state : ClinicState :=
  { patients := [demo_patient],
    doctors := [demo_doctor],
    availability := [⟨1, demo_date, true, false⟩],
    appointments := [demo_appt],
    nextApptId := 2 }

/-- A state whose morning slot of 2025-09-24 is open: the doctor works the
shift and the ledger is empty. -/
def open_slot_state : ClinicState :=
  { patients := [demo_patient],
    doctors := [demo_doctor],
    availability := [⟨1, demo_date, true, false⟩],
    appointments := [],
    nextApptId := 1 }

/-- A state with no availability record at all for the demo doctor. -/
def no_avail_state : ClinicState :=
  { patients := [demo_patient],
    doctors := [demo_doctor],
    availability := [],
    appointments := [],
    nextApptId := 1 }

/-- A state holding one `'Completed'` appointment owned by the demo patient
and doctor. -/
def completed_state : ClinicState :=
  { patients := [demo_patient],
    doctors := [demo_doctor],
    availability := [],
    appointments := [⟨1, 1, 1, demo_date, ⟨8, 0, 0⟩, "Completed"⟩],
    nextApptId := 2 }

/-- A state holding one `'Cancelled'` appointment owned by the demo patient
and doctor. -/
def cancelled_state : ClinicState :=
  { patients := [demo_patient],
    doctors := [demo_doctor],
    availability := [],
    appointments := [⟨1, 1, 1, demo_date, ⟨8, 0, 0⟩, "Cancelled"⟩],
    nextApptId := 2 }

/-- A state holding a `'Completed'` row (id 1) next to a `'Booked'` row
(id 2), both owned by the demo patient and doctor. -/
def mixed_state : ClinicState :=
  { patients := [demo_patient],
    doctors := [demo_doctor],
    availability := [],
    appointments := [⟨1, 1, 1, demo_date, ⟨8, 0, 0⟩, "Completed"⟩,
      ⟨2, 1, 1, demo_date, ⟨16, 0, 0⟩, "Booked"⟩],
    nextApptId := 3 }

/-- A state seeded like the demo data of app.py line 859: a `'Booked'`
appointment at the off-grid time 08:12, with the doctor working the
morning shift. -/
def seeded_state : ClinicState :=
  { patients := [demo_patient],
    doctors := [demo_doctor],
    availability := [⟨1, demo_date, true, false⟩],
    appointments := [⟨1, 1, 1, demo_date, ⟨8, 12, 0⟩, "Booked"⟩],
    nextApptId := 2 }

instance (s : ClinicState) : Decidable (BookedUnique s) := by
  unfold BookedUnique; infer_instance

instance (l : List DoctorAvailability) : Decidable (AvailUniqueList l) := by
  unfold AvailUniqueList; infer_instance

/-! ## Shape lemmas: each handler either leaves the state unchanged or
performs its single write -/

/-- The booking handler either returns the state unchanged, or the conflict
query found nothing and the handler performed exactly the insert. -/
lemma book_appointment_snd (s : ClinicState) (pid did : Nat) (d : Date)
    (t : Time) :
    (book_appointment s pid did d t).2 = s ∨
      (findBooked s did d t = none ∧
        (book_appointment s pid did d t).2 = book_insert s pid did d t) := by
  unfold book_appointment
  cases hfd : findDoctor s did with
  | none => exact Or.inl rfl
  | some doc =>
    by_cases hbl : doc.is_blacklisted
    · exact Or.inl (by simp [hbl])
    · by_cases hw : is_doctor_working (findAvail s did d) t
      · cases hfb : findBooked s did d t with
        | none => exact Or.inr ⟨rfl, by simp [hbl, hw]⟩
        | some a => exact Or.inl (by simp [hbl, hw])
      · exact Or.inl (by simp [hbl, hw])

/-- The cancel handler either leaves the state unchanged or sets the status
of the addressed row to `'Cancelled'`. -/
lemma cancel_appointment_snd (s : ClinicState) (aid : Nat) (p : Principal) :
    (cancel_appointment s aid p).2 = s ∨
      (cancel_appointment s aid p).2 = setStatus s aid "Cancelled" := by
  unfold cancel_appointment
  cases hfd : findAppt s aid with
  | none => exact Or.inl rfl
  | some appt =>
    by_cases hz :
        (!(p.role == Role.patient && appt.patient_id == p.id ||
          p.role == Role.doctor && appt.doctor_id == p.id)) = true
    · exact Or.inl (by simp only [hz, if_true])
    · exact Or.inr (by simp [hz])

/-- The mark-complete handler either leaves the state unchanged or sets the
status of the addressed row to `'Completed'`. -/
lemma mark_complete_snd (s : ClinicState) (aid : Nat) (p : Principal) :
    (mark_complete s aid p).2 = s ∨
      (mark_complete s aid p).2 = setStatus s aid "Completed" := by
  unfold mark_complete
  by_cases hr : (!(p.role == Role.doctor)) = true
  · exact Or.inl (by simp [hr])
  · cases hfd : findAppt s aid with
    | none => exact Or.inl (by simp [hr])
    | some appt =>
      by_cases hd : (!(appt.doctor_id == p.id)) = true
      · exact Or.inl (by simp [hr, hd])
      · exact Or.inr (by simp [hr, hd])

/-! ## Preservation of the exclusivity invariant -/

/-- The conflict query comes back empty exactly when no `'Booked'` row holds
the key. -/
lemma findBooked_eq_none_iff (s : ClinicState) (did : Nat) (d : Date)
    (t : Time) : findBooked s did d t = none ↔ bookedAt s did d t = [] := by
  unfold findBooked bookedAt
  rw [List.find?_eq_none, List.filter_eq_nil_iff]

/-- Inserting a `'Booked'` row after the conflict query found the slot free
preserves exclusivity. -/
lemma bookedUnique_book_insert (s : ClinicState) (pid did : Nat) (d : Date)
    (t : Time) (h : BookedUnique s) (hfb : findBooked s did d t = none) :
    BookedUnique (book_insert s pid did d t) := by
  unfold BookedUnique book_insert
  rw [List.pairwise_append]
  refine ⟨h, by simp, ?_⟩
  intro a ha b hb
  simp only [List.mem_singleton] at hb
  subst hb
  rintro ⟨ha1, -, ha3, ha4, ha5⟩
  exact List.find?_eq_none.mp hfb a ha (by simp [ha1, ha3, ha4, ha5])

/-- A successful booking preserves exclusivity. -/
lemma bookedUnique_book (s : ClinicState) (pid did : Nat) (d : Date)
    (t : Time) (h : BookedUnique s) :
    BookedUnique (book_appointment s pid did d t).2 := by
  rcases book_appointment_snd s pid did d t with heq | ⟨hfb, heq⟩
  · rw [heq]; exact h
  · rw [heq]; exact bookedUnique_book_insert s pid did d t h hfb

/-- Overwriting one row's status with a non-`'Booked'` value preserves
exclusivity. -/
lemma bookedUnique_setStatus (s : ClinicState) (aid : Nat) (st : String)
    (hst : st ≠ "Booked") (h : BookedUnique s) :
    BookedUnique (setStatus s aid st) := by
  unfold BookedUnique setStatus
  refine h.map _ ?_
  intro a b hab hcon
  apply hab
  by_cases ha : (a.id == aid) = true
  · exfalso
    rcases hcon with ⟨h1, -⟩
    rw [if_pos ha] at h1
    exact hst h1
  · by_cases hb : (b.id == aid) = true
    · exfalso
      rcases hcon with ⟨-, h2, -⟩
      rw [if_pos hb] at h2
      exact hst h2
    · rw [if_neg ha, if_neg hb] at hcon
      exact hcon

/-- Cancelling preserves exclusivity. -/
lemma bookedUnique_cancel (s : ClinicState) (aid : Nat) (p : Principal)
    (h : BookedUnique s) : BookedUnique (cancel_appointment s aid p).2 := by
  rcases cancel_appointment_snd s aid p with heq | heq <;> rw [heq]
  · exact h
  · exact bookedUnique_setStatus s aid "Cancelled" (by decide) h

/-- Completing preserves exclusivity. -/
lemma bookedUnique_complete (s : ClinicState) (aid : Nat) (p : Principal)
    (h : BookedUnique s) : BookedUnique (mark_complete s aid p).2 := by
  rcases mark_complete_snd s aid p with heq | heq <;> rw [heq]
  · exact h
  · exact bookedUnique_setStatus s aid "Completed" (by decide) h

/-- The availability upsert does not touch the ledger. -/
lemma bookedUnique_setAvailability (s : ClinicState) (did : Nat) (d : Date)
    (m e : Bool) (h : BookedUnique s) :
    BookedUnique (setAvailability s did d m e) := h

/-- Every single core operation preserves exclusivity. -/
lemma bookedUnique_applyOp (s : ClinicState) (op : Op) (h : BookedUnique s) :
    BookedUnique (applyOp s op) := by
  cases op with
  | book pid did d t => exact bookedUnique_book s pid did d t h
  | cancel aid p => exact bookedUnique_cancel s aid p h
  | complete aid p => exact bookedUnique_complete s aid p h
  | setAvail did d m e => exact bookedUnique_setAvailability s did d m e h

/-- Every sequence of core operations preserves exclusivity. -/
lemma bookedUnique_applyOps (s : ClinicState) (ops : List Op)
    (h : BookedUnique s) : BookedUnique (applyOps s ops) := by
  induction ops generalizing s with
  | nil => exact h
  | cons op rest ih => exact ih (applyOp s op) (bookedUnique_applyOp s op h)

/-- A booking request for an already-booked key can never come back
successful: the conflict query finds the standing row (or an earlier check
rejects first). -/
lemma book_not_booked_of_taken (s : ClinicState) (pid did : Nat) (d : Date)
    (t : Time) (htaken : bookedAt s did d t ≠ []) (i : Nat) :
    (book_appointment s pid did d t).1 ≠ .booked i := by
  unfold book_appointment
  cases hfd : findDoctor s did with
  | none => simp
  | some doc =>
    by_cases hbl : doc.is_blacklisted
    · simp [hbl]
    · by_cases hw : is_doctor_working (findAvail s did d) t
      · cases hfb : findBooked s did d t with
        | none => exact absurd ((findBooked_eq_none_iff s did d t).mp hfb) htaken
        | some a => simp [hbl, hw]
      · simp [hbl, hw]

/-- The shift-level working flag agrees with the source's hour-keyed check
evaluated at the shift's start instant. -/
lemma isWorkingShift_eq (s : ClinicState) (did : Nat) (d : Date)
    (sh : Shift) :
    isWorkingShift s did d sh =
      is_doctor_working (findAvail s did d) sh.startTime := by
  unfold isWorkingShift is_doctor_working
  cases findAvail s did d <;> cases sh <;> simp [Shift.startTime]

/-- A row that is `'Booked'` after a status overwrite with a non-`'Booked'`
value was already a row of the ledger before the overwrite. -/
lemma setStatus_booked_source (s : ClinicState) (aid : Nat) (st : String)
    (hst : st ≠ "Booked") (a : Appointment)
    (ha : a ∈ (setStatus s aid st).appointments)
    (hb : a.status = "Booked") : a ∈ s.appointments := by
  unfold setStatus at ha
  simp only [List.mem_map] at ha
  obtain ⟨c, hc, hgc⟩ := ha
  by_cases hid : (c.id == aid) = true
  · rw [if_pos hid] at hgc
    exact absurd (hgc ▸ hb).symm (Ne.symm hst)
  · rw [if_neg hid] at hgc
    exact hgc ▸ hc

/-- Overwriting the same row's status with the same value twice is the same
as doing it once. -/
lemma setStatus_setStatus (s : ClinicState) (aid : Nat) (st : String) :
    setStatus (setStatus s aid st) aid st = setStatus s aid st := by
  simp only [setStatus, List.map_map]
  congr 1
  apply List.map_congr_left
  intro a _
  by_cases h : (a.id == aid) = true <;> simp [Function.comp, h]

/-- A status overwrite commutes with the primary-key lookup: the found row
is the old row, updated when its id matches. -/
lemma findAppt_setStatus (s : ClinicState) (aid j : Nat) (st : String) :
    findAppt (setStatus s aid st) j = (findAppt s j).map
      (fun c => if (c.id == aid) = true then { c with status := st }
        else c) := by
  unfold findAppt setStatus
  dsimp only
  rw [List.find?_map]
  congr 2
  funext a
  by_cases h : (a.id == aid) = true <;> simp [Function.comp, h]

/-- Re-invoking the same cancel leaves the state exactly as after the first
invocation. -/
lemma cancel_appointment_idem (s : ClinicState) (aid : Nat) (p : Principal) :
    (cancel_appointment (cancel_appointment s aid p).2 aid p).2 =
      (cancel_appointment s aid p).2 := by
  rcases hfd : findAppt s aid with _ | ⟨aId, aPat, aDoc, aDate, aTime, aSt⟩
  · have h1 : (cancel_appointment s aid p).2 = s := by
      unfold cancel_appointment
      rw [hfd]
    rw [h1]
    exact h1
  · have hid : (aId == aid) = true := by
      have h2 := hfd
      unfold findAppt at h2
      have h3 := List.find?_some h2
      exact h3
    by_cases hz : (!(p.role == Role.patient && aPat == p.id ||
        p.role == Role.doctor && aDoc == p.id)) = true
    · have h1 : (cancel_appointment s aid p).2 = s := by
        unfold cancel_appointment
        rw [hfd]
        dsimp only
        rw [if_pos hz]
      rw [h1]
      exact h1
    · have h1 : (cancel_appointment s aid p).2 =
          setStatus s aid "Cancelled" := by
        unfold cancel_appointment
        rw [hfd]
        dsimp only
        rw [if_neg hz]
      have hfd2 : findAppt (setStatus s aid "Cancelled") aid =
          some ⟨aId, aPat, aDoc, aDate, aTime, "Cancelled"⟩ := by
        rw [findAppt_setStatus, hfd, Option.map_some', if_pos hid]
      rw [h1]
      unfold cancel_appointment
      rw [hfd2]
      dsimp only
      rw [if_neg hz]
      dsimp only
      exact setStatus_setStatus s aid "Cancelled"

/-- Re-invoking the same mark-complete leaves the state exactly as after
the first invocation. -/
lemma mark_complete_idem (s : ClinicState) (aid : Nat) (q : Principal) :
    (mark_complete (mark_complete s aid q).2 aid q).2 =
      (mark_complete s aid q).2 := by
  by_cases hr : (!(q.role == Role.doctor)) = true
  · have h1 : (mark_complete s aid q).2 = s := by
      unfold mark_complete
      rw [if_pos hr]
    rw [h1]
    exact h1
  · rcases hfd : findAppt s aid with _ | ⟨aId, aPat, aDoc, aDate, aTime, aSt⟩
    · have h1 : (mark_complete s aid q).2 = s := by
        unfold mark_complete
        rw [if_neg hr, hfd]
      rw [h1]
      exact h1
    · have hid : (aId == aid) = true := by
        have h2 := hfd
        unfold findAppt at h2
        have h3 := List.find?_some h2
        exact h3
      by_cases hd : (!(aDoc == q.id)) = true
      · have h1 : (mark_complete s aid q).2 = s := by
          unfold mark_complete
          rw [if_neg hr, hfd]
          dsimp only
          rw [if_pos hd]
        rw [h1]
        exact h1
      · have h1 : (mark_complete s aid q).2 =
            setStatus s aid "Completed" := by
          unfold mark_complete
          rw [if_neg hr, hfd]
          dsimp only
          rw [if_neg hd]
        have hfd2 : findAppt (setStatus s aid "Completed") aid =
            some ⟨aId, aPat, aDoc, aDate, aTime, "Completed"⟩ := by
          rw [findAppt_setStatus, hfd, Option.map_some', if_pos hid]
        rw [h1]
        unfold mark_complete
        rw [if_neg hr, hfd2]
        dsimp only
        rw [if_neg hd]
        dsimp only
        exact setStatus_setStatus s aid "Completed"

/-- A successful cancel overwrites the addressed row's status with
`'Cancelled'` unconditionally, whatever the prior status was. -/
lemma cancel_success_status (s : ClinicState) (aid : Nat) (p : Principal)
    (h : (cancel_appointment s aid p).1 = .cancelled) :
    findAppt (cancel_appointment s aid p).2 aid =
      (findAppt s aid).map (fun c => { c with status := "Cancelled" }) := by
  rcases hfd : findAppt s aid with _ | ⟨aId, aPat, aDoc, aDate, aTime, aSt⟩
  · exact absurd h (by unfold cancel_appointment; rw [hfd]; simp)
  · have hid : (aId == aid) = true := by
      have h2 := hfd
      unfold findAppt at h2
      have h3 := List.find?_some h2
      exact h3
    by_cases hz : (!(p.role == Role.patient && aPat == p.id ||
        p.role == Role.doctor && aDoc == p.id)) = true
    · refine absurd h ?_
      unfold cancel_appointment
      rw [hfd]
      dsimp only
      rw [if_pos hz]
      simp
    · have h1 : (cancel_appointment s aid p).2 =
          setStatus s aid "Cancelled" := by
        unfold cancel_appointment
        rw [hfd]
        dsimp only
        rw [if_neg hz]
      rw [h1, findAppt_setStatus, hfd, Option.map_some', Option.map_some',
        if_pos hid]

/-- A successful mark-complete overwrites the addressed row's status with
`'Completed'` unconditionally, whatever the prior status was. -/
lemma mark_complete_success_status (s : ClinicState) (aid : Nat)
    (q : Principal) (h : (mark_complete s aid q).1 = .completed) :
    findAppt (mark_complete s aid q).2 aid =
      (findAppt s aid).map (fun c => { c with status := "Completed" }) := by
  by_cases hr : (!(q.role == Role.doctor)) = true
  · exact absurd h (by unfold mark_complete; rw [if_pos hr]; simp)
  · rcases hfd : findAppt s aid with _ | ⟨aId, aPat, aDoc, aDate, aTime, aSt⟩
    · exact absurd h (by unfold mark_complete; rw [if_neg hr, hfd]; simp)
    · have hid : (aId == aid) = true := by
        have h2 := hfd
        unfold findAppt at h2
        have h3 := List.find?_some h2
        exact h3
      by_cases hd : (!(aDoc == q.id)) = true
      · refine absurd h ?_
        unfold mark_complete
        rw [if_neg hr, hfd]
        dsimp only
        rw [if_pos hd]
        simp
      · have h1 : (mark_complete s aid q).2 =
            setStatus s aid "Completed" := by
          unfold mark_complete
          rw [if_neg hr, hfd]
          dsimp only
          rw [if_neg hd]
        rw [h1, findAppt_setStatus, hfd, Option.map_some', Option.map_some',
          if_pos hid]

/-! ## The availability upsert -/

/-- After the upsert, the records for the touched (doctor, date) key are
exactly one record carrying the two submitted flags (given the at-most-one
invariant beforehand). -/
lemma availFor_upsert_self (l : List DoctorAvailability) (did : Nat)
    (d : Date) (m e : Bool) (hu : AvailUniqueList l) :
    availFor (upsertAvail l did d m e) did d = [⟨did, d, m, e⟩] := by
  induction l with
  | nil => simp [upsertAvail, availFor]
  | cons a rest ih =>
    unfold AvailUniqueList at hu
    rw [List.pairwise_cons] at hu
    obtain ⟨ha, hrest⟩ := hu
    unfold upsertAvail
    by_cases h : (a.doctor_id == did && a.date == d) = true
    · rw [if_pos h]
      rw [Bool.and_eq_true] at h
      have hdid : a.doctor_id = did := eq_of_beq h.1
      have hdate : a.date = d := eq_of_beq h.2
      have hkey : ({a with morning_available := m, evening_available := e} :
          DoctorAvailability) = ⟨did, d, m, e⟩ := by
        obtain ⟨adid, adate, am, ae⟩ := a
        dsimp only at hdid hdate
        rw [hdid, hdate]
      have hrest0 : availFor rest did d = [] := by
        unfold availFor
        rw [List.filter_eq_nil_iff]
        intro x hx hpx
        rw [Bool.and_eq_true] at hpx
        exact ha x hx ⟨hdid.trans (eq_of_beq hpx.1).symm,
          hdate.trans (eq_of_beq hpx.2).symm⟩
      rw [hkey]
      unfold availFor at hrest0 ⊢
      rw [List.filter_cons, if_pos (by simp), hrest0]
    · rw [if_neg h]
      unfold availFor at ih ⊢
      rw [List.filter_cons, if_neg (by simp [h]), ih hrest]

/-- The upsert leaves every other (doctor, date) key's records untouched. -/
lemma availFor_upsert_other (l : List DoctorAvailability) (did : Nat)
    (d : Date) (m e : Bool) (did' : Nat) (d' : Date)
    (hne : ¬(did' = did ∧ d' = d)) :
    availFor (upsertAvail l did d m e) did' d' = availFor l did' d' := by
  induction l with
  | nil =>
    unfold upsertAvail availFor
    rw [List.filter_cons, if_neg, List.filter_nil]
    intro hp
    rw [Bool.and_eq_true] at hp
    exact hne ⟨(eq_of_beq hp.1).symm, (eq_of_beq hp.2).symm⟩
  | cons a rest ih =>
    unfold upsertAvail
    by_cases h : (a.doctor_id == did && a.date == d) = true
    · rw [if_pos h]
      rw [Bool.and_eq_true] at h
      have hdid : a.doctor_id = did := eq_of_beq h.1
      have hdate : a.date = d := eq_of_beq h.2
      have hpa : (a.doctor_id == did' && a.date == d') = false := by
        rw [Bool.and_eq_false_iff]
        by_cases hq : a.doctor_id = did'
        · right
          rw [beq_eq_false_iff_ne]
          intro hq2
          exact hne ⟨hq.symm.trans hdid, hq2.symm.trans hdate⟩
        · left
          rw [beq_eq_false_iff_ne]
          exact hq
      unfold availFor
      rw [List.filter_cons, if_neg (by simp [hpa]), List.filter_cons,
        if_neg (by simp [hpa])]
    · rw [if_neg h]
      unfold availFor at ih ⊢
      rw [List.filter_cons, List.filter_cons, ih]

/-- Re-running the identical upsert changes nothing. -/
lemma upsertAvail_idem (l : List DoctorAvailability) (did : Nat) (d : Date)
    (m e : Bool) :
    upsertAvail (upsertAvail l did d m e) did d m e =
      upsertAvail l did d m e := by
  induction l with
  | nil =>
    show upsertAvail [⟨did, d, m, e⟩] did d m e = [⟨did, d, m, e⟩]
    unfold upsertAvail
    rw [if_pos (by simp)]
  | cons a rest ih =>
    by_cases h : (a.doctor_id == did && a.date == d) = true
    · simp [upsertAvail, h]
    · simp [upsertAvail, h, ih]

/-- Every member of the upserted list either shares its key with a member
of the original list or carries the upserted key. -/
lemma mem_upsertAvail (l : List DoctorAvailability) (did : Nat) (d : Date)
    (m e : Bool) (x : DoctorAvailability)
    (hx : x ∈ upsertAvail l did d m e) :
    (∃ c ∈ l, c.doctor_id = x.doctor_id ∧ c.date = x.date) ∨
      (x.doctor_id = did ∧ x.date = d) := by
  induction l with
  | nil =>
    unfold upsertAvail at hx
    simp only [List.mem_singleton] at hx
    exact Or.inr (by rw [hx]; exact ⟨rfl, rfl⟩)
  | cons a rest ih =>
    unfold upsertAvail at hx
    by_cases h : (a.doctor_id == did && a.date == d) = true
    · rw [if_pos h] at hx
      rcases List.mem_cons.mp hx with hx1 | hx2
      · exact Or.inl ⟨a, List.mem_cons_self a rest,
          by rw [hx1]; exact ⟨rfl, rfl⟩⟩
      · exact Or.inl ⟨x, List.mem_cons_of_mem a hx2, rfl, rfl⟩
    · rw [if_neg h] at hx
      rcases List.mem_cons.mp hx with hx1 | hx2
      · exact Or.inl ⟨a, List.mem_cons_self a rest,
          by rw [hx1]; exact ⟨rfl, rfl⟩⟩
      · rcases ih hx2 with ⟨c, hc, hck⟩ | hk
        · exact Or.inl ⟨c, List.mem_cons_of_mem a hc, hck⟩
        · exact Or.inr hk

/-- The upsert preserves the at-most-one-record-per-key invariant. -/
lemma availUnique_upsertAvail (l : List DoctorAvailability) (did : Nat)
    (d : Date) (m e : Bool) (hu : AvailUniqueList l) :
    AvailUniqueList (upsertAvail l did d m e) := by
  induction l with
  | nil => simp [upsertAvail, AvailUniqueList]
  | cons a rest ih =>
    unfold AvailUniqueList at hu ⊢
    rw [List.pairwise_cons] at hu
    obtain ⟨ha, hrest⟩ := hu
    unfold upsertAvail
    by_cases h : (a.doctor_id == did && a.date == d) = true
    · rw [if_pos h, List.pairwise_cons]
      exact ⟨fun b hb hcon => ha b hb hcon, hrest⟩
    · rw [if_neg h, List.pairwise_cons]
      refine ⟨?_, ih hrest⟩
      intro b hb hcon
      rcases mem_upsertAvail rest did d m e b hb with ⟨c, hc, hc1, hc2⟩ | hk
      · exact ha c hc ⟨hcon.1.trans hc1.symm, hcon.2.trans hc2.symm⟩
      · exact h (by simp [hcon.1.trans hk.1, hcon.2.trans hk.2])

/-! ## Claim theorems -/

/-- C1: starting from a state satisfying the exclusivity invariant, every
sequence of core operations (booking, cancel, complete, availability
updates) preserves it — at most one `'Booked'` row per (doctor, date, time)
key, while Cancelled/Completed rows may share keys freely — and a booking
request for a key that already holds a `'Booked'` row can never return a
successful result. -/
theorem C1_exclusivity_invariant (s : ClinicState) (ops : List Op)
    (pid did : Nat) (d : Date) (t : Time) (h : BookedUnique s) :
    BookedUnique (applyOps s ops) ∧
      (bookedAt s did d t ≠ [] →
        ∀ i, (book_appointment s pid did d t).1 ≠ .booked i) :=
  ⟨bookedUnique_applyOps s ops h,
    fun ht i => book_not_booked_of_taken s pid did d t ht i⟩

/-- Witness for C1 at a concrete state: the demo state satisfies the
invariant, and the theorem applies to it for a cancel-then-rebook sequence
and for a booking aimed at the occupied morning slot. -/
theorem C1_exclusivity_invariant_witness :
    BookedUnique demo_state ∧
      (BookedUnique (applyOps demo_state
          [Op.cancel 1 ⟨.patient, 1⟩, Op.book 1 1 demo_date ⟨8, 0, 0⟩]) ∧
        (bookedAt demo_state 1 demo_date ⟨8, 0, 0⟩ ≠ [] →
          ∀ i, (book_appointment demo_state 1 1 demo_date ⟨8, 0, 0⟩).1 ≠
            .booked i)) :=
  ⟨by decide,
    C1_exclusivity_invariant demo_state
      [Op.cancel 1 ⟨.patient, 1⟩, Op.book 1 1 demo_date ⟨8, 0, 0⟩]
      1 1 demo_date ⟨8, 0, 0⟩ (by decide)⟩

/-- C2 counterexample: the submitted time 08:30:00 is neither of the two
fixed shift start times, yet with the morning shift open the booking
handler does not reject it as malformed — it creates a `'Booked'`
appointment at 08:30:00, changing the ledger. -/
theorem C2_counterexample :
    (⟨8, 30, 0⟩ : Time) ≠ ⟨8, 0, 0⟩ ∧ (⟨8, 30, 0⟩ : Time) ≠ ⟨16, 0, 0⟩ ∧
    (book_appointment open_slot_state 1 1 demo_date ⟨8, 30, 0⟩).1 =
      .booked 1 ∧
    (book_appointment open_slot_state 1 1 demo_date ⟨8, 30, 0⟩).2.appointments
      = [⟨1, 1, 1, demo_date, ⟨8, 30, 0⟩, "Booked"⟩] := by
  decide

/-- C2 amended: only the hour of the submitted time is checked against the
shift grid. A submitted time whose hour is neither 8 nor 16 is rejected
with the doctor-not-available outcome (there is no distinct malformed-slot
outcome) and leaves the state unchanged; a time with hour 8 or 16 but
off-grid minutes or seconds is treated as the corresponding shift and can
be booked. -/
theorem C2_offgrid_hour_not_available (s : ClinicState) (pid did : Nat)
    (d : Date) (t : Time) (doc : Doctor)
    (hfd : findDoctor s did = some doc) (hbl : doc.is_blacklisted = false)
    (h8 : t.hour ≠ 8) (h16 : t.hour ≠ 16) :
    book_appointment s pid did d t = (.doctorNotAvailable, s) := by
  have hw : is_doctor_working (findAvail s did d) t = false := by
    unfold is_doctor_working
    cases findAvail s did d with
    | none => rfl
    | some a => simp [h8, h16]
  unfold book_appointment
  rw [hfd]
  simp [hbl, hw]

/-- Witness for C2 amended: a 09:00:00 request against the open demo slot
is rejected as not-available and the state is unchanged. -/
theorem C2_offgrid_hour_not_available_witness :
    findDoctor open_slot_state 1 = some demo_doctor ∧
    demo_doctor.is_blacklisted = false ∧
    (⟨9, 0, 0⟩ : Time).hour ≠ 8 ∧ (⟨9, 0, 0⟩ : Time).hour ≠ 16 ∧
    book_appointment open_slot_state 1 1 demo_date ⟨9, 0, 0⟩ =
      (.doctorNotAvailable, open_slot_state) :=
  ⟨by decide, by decide, by decide, by decide,
    C2_offgrid_hour_not_available open_slot_state 1 1 demo_date ⟨9, 0, 0⟩
      demo_doctor (by decide) (by decide) (by decide) (by decide)⟩

/-- C3 counterexample: both terminal states admit an exit transition. The
cancel handler, invoked by the owning patient on an already-`'Completed'`
appointment, overwrites its status with `'Cancelled'`; and the
mark-complete handler, invoked by the owning doctor on an
already-`'Cancelled'` appointment, overwrites its status with
`'Completed'` — transitions out of `Completed` and out of `Cancelled`,
which the claim rules out. -/
theorem C3_counterexample :
    (findAppt completed_state 1 =
        some ⟨1, 1, 1, demo_date, ⟨8, 0, 0⟩, "Completed"⟩ ∧
      (cancel_appointment completed_state 1 ⟨.patient, 1⟩).1 = .cancelled ∧
      findAppt (cancel_appointment completed_state 1 ⟨.patient, 1⟩).2 1 =
        some ⟨1, 1, 1, demo_date, ⟨8, 0, 0⟩, "Cancelled"⟩) ∧
    (findAppt cancelled_state 1 =
        some ⟨1, 1, 1, demo_date, ⟨8, 0, 0⟩, "Cancelled"⟩ ∧
      (mark_complete cancelled_state 1 ⟨.doctor, 1⟩).1 = .completed ∧
      findAppt (mark_complete cancelled_state 1 ⟨.doctor, 1⟩).2 1 =
        some ⟨1, 1, 1, demo_date, ⟨8, 0, 0⟩, "Completed"⟩) := by
  decide

/-- C3 amended: the cancel and mark-complete handlers never move any row
back to `'Booked'` (every row that is `'Booked'` after either call was
already a row of the ledger before it), and re-invoking the same
transition is idempotent (running the identical cancel or mark-complete a
second time leaves the state exactly as after the first); but the terminal
states are not absorbing against each other: a successful call overwrites
the addressed row's status unconditionally, so an authorized cancel turns
a `'Completed'` appointment `'Cancelled'` and an authorized mark-complete
turns a `'Cancelled'` appointment `'Completed'`. -/
theorem C3_lifecycle_amended (s : ClinicState) (aid : Nat)
    (p q : Principal) (a b : Appointment) :
    (a ∈ (cancel_appointment s aid p).2.appointments →
      a.status = "Booked" → a ∈ s.appointments) ∧
    (b ∈ (mark_complete s aid q).2.appointments →
      b.status = "Booked" → b ∈ s.appointments) ∧
    (cancel_appointment (cancel_appointment s aid p).2 aid p).2 =
      (cancel_appointment s aid p).2 ∧
    (mark_complete (mark_complete s aid q).2 aid q).2 =
      (mark_complete s aid q).2 ∧
    ((cancel_appointment s aid p).1 = .cancelled →
      findAppt (cancel_appointment s aid p).2 aid =
        (findAppt s aid).map (fun c => { c with status := "Cancelled" })) ∧
    ((mark_complete s aid q).1 = .completed →
      findAppt (mark_complete s aid q).2 aid =
        (findAppt s aid).map (fun c => { c with status := "Completed" })) := by
  refine ⟨?_, ?_, cancel_appointment_idem s aid p, mark_complete_idem s aid q,
    fun h => cancel_success_status s aid p h,
    fun h => mark_complete_success_status s aid q h⟩
  · intro ha hb
    rcases cancel_appointment_snd s aid p with heq | heq
    · exact heq ▸ ha
    · exact setStatus_booked_source s aid "Cancelled" (by decide) a
        (heq ▸ ha) hb
  · intro ha hb
    rcases mark_complete_snd s aid q with heq | heq
    · exact heq ▸ ha
    · exact setStatus_booked_source s aid "Completed" (by decide) b
        (heq ▸ ha) hb

/-- Witness for C3 amended, at the state holding a `'Completed'` row (id 1)
beside a `'Booked'` row (id 2): the `'Booked'` row survives both an
authorized cancel and an authorized complete of row 1 and is traced back
to the original ledger; both calls are idempotent; and both succeed,
overwriting row 1's terminal status with the other terminal status. -/
theorem C3_lifecycle_amended_witness :
    ((⟨2, 1, 1, demo_date, ⟨16, 0, 0⟩, "Booked"⟩ : Appointment) ∈
      (cancel_appointment mixed_state 1 ⟨.patient, 1⟩).2.appointments) ∧
    (⟨2, 1, 1, demo_date, ⟨16, 0, 0⟩, "Booked"⟩ : Appointment).status =
      "Booked" ∧
    ((⟨2, 1, 1, demo_date, ⟨16, 0, 0⟩, "Booked"⟩ : Appointment) ∈
      mixed_state.appointments) ∧
    ((⟨2, 1, 1, demo_date, ⟨16, 0, 0⟩, "Booked"⟩ : Appointment) ∈
      (mark_complete mixed_state 1 ⟨.doctor, 1⟩).2.appointments) ∧
    (cancel_appointment
      (cancel_appointment mixed_state 1 ⟨.patient, 1⟩).2 1 ⟨.patient, 1⟩).2
      = (cancel_appointment mixed_state 1 ⟨.patient, 1⟩).2 ∧
    (mark_complete
      (mark_complete mixed_state 1 ⟨.doctor, 1⟩).2 1 ⟨.doctor, 1⟩).2 =
      (mark_complete mixed_state 1 ⟨.doctor, 1⟩).2 ∧
    (cancel_appointment mixed_state 1 ⟨.patient, 1⟩).1 = .cancelled ∧
    findAppt (cancel_appointment mixed_state 1 ⟨.patient, 1⟩).2 1 =
      (findAppt mixed_state 1).map
        (fun c => { c with status := "Cancelled" }) ∧
    (mark_complete mixed_state 1 ⟨.doctor, 1⟩).1 = .completed ∧
    findAppt (mark_complete mixed_state 1 ⟨.doctor, 1⟩).2 1 =
      (findAppt mixed_state 1).map
        (fun c => { c with status := "Completed" }) := by
  have T := C3_lifecycle_amended mixed_state 1 ⟨.patient, 1⟩ ⟨.doctor, 1⟩
    ⟨2, 1, 1, demo_date, ⟨16, 0, 0⟩, "Booked"⟩
    ⟨2, 1, 1, demo_date, ⟨16, 0, 0⟩, "Booked"⟩
  exact ⟨by decide, by decide, T.1 (by decide) (by decide), by decide,
    T.2.2.1, T.2.2.2.1, by decide, T.2.2.2.2.1 (by decide), by decide,
    T.2.2.2.2.2 (by decide)⟩

/-- C5: a well-formed booking request for a shift whose working flag is
false — including when no availability record exists for that (doctor,
date) — comes back in the `DoctorUnavailable` class and leaves the state
unchanged, no matter what the booking state of the slot is. -/
theorem C5_not_working_blocks_booking (s : ClinicState) (pid did : Nat)
    (d : Date) (sh : Shift) (doc : Doctor)
    (hfd : findDoctor s did = some doc)
    (hw : isWorkingShift s did d sh = false) :
    (book_appointment s pid did d sh.startTime).1.isDoctorUnavailable = true
      ∧ (book_appointment s pid did d sh.startTime).2 = s := by
  rw [isWorkingShift_eq] at hw
  by_cases hbl : doc.is_blacklisted = true
  · constructor <;>
      simp [book_appointment, hfd, hbl, BookResult.isDoctorUnavailable]
  · constructor <;>
      simp [book_appointment, hfd, hbl, hw, BookResult.isDoctorUnavailable]

/-- Witness for C5, the spec's scenario: no availability record exists for
the (doctor, date), and the morning booking request is rejected as
doctor-unavailable with the state unchanged. -/
theorem C5_not_working_blocks_booking_witness :
    findDoctor no_avail_state 1 = some demo_doctor ∧
    isWorkingShift no_avail_state 1 ⟨2025, 9, 25⟩ .Morning = false ∧
    ((book_appointment no_avail_state 1 1 ⟨2025, 9, 25⟩
        Shift.Morning.startTime).1.isDoctorUnavailable = true ∧
      (book_appointment no_avail_state 1 1 ⟨2025, 9, 25⟩
        Shift.Morning.startTime).2 = no_avail_state) :=
  ⟨by decide, by decide,
    C5_not_working_blocks_booking no_avail_state 1 1 ⟨2025, 9, 25⟩ .Morning
      demo_doctor (by decide) (by decide)⟩

/-- C6: the code admits the check-then-act race. On an initially open slot a
lone request does succeed, but when two concurrent requests both pass the
validation against the same snapshot before either commits — which nothing
in the code or schema prevents — both inserts go through and the final
ledger holds two `'Booked'` rows for the identical (doctor, date, time),
violating the exactly-one-success guarantee the claim states. -/
theorem C6_race_two_successes :
    (book_appointment open_slot_state 1 1 demo_date ⟨8, 0, 0⟩).1 =
      .booked 1 ∧
    passes_booking_validation open_slot_state 1 demo_date ⟨8, 0, 0⟩ = true ∧
    (bookedAt (race_two_bookings open_slot_state 1 2 1 demo_date ⟨8, 0, 0⟩)
      1 demo_date ⟨8, 0, 0⟩).length = 2 ∧
    ¬ BookedUnique (race_two_bookings open_slot_state 1 2 1 demo_date
      ⟨8, 0, 0⟩) := by
  decide

/-- C7: a cancel request whose principal is neither the appointment's
owning patient nor its owning doctor returns the forbidden outcome and
returns the state — hence every field of the appointment — unchanged. -/
theorem C7_forbidden_cancel (s : ClinicState) (aid : Nat) (p : Principal)
    (appt : Appointment) (hfd : findAppt s aid = some appt)
    (hp : ¬(p.role = Role.patient ∧ appt.patient_id = p.id))
    (hd : ¬(p.role = Role.doctor ∧ appt.doctor_id = p.id)) :
    cancel_appointment s aid p = (.forbidden, s) := by
  have h1 : (p.role == Role.patient && appt.patient_id == p.id) = false := by
    cases hr : p.role == Role.patient with
    | false => simp [hr]
    | true =>
      cases hpid : appt.patient_id == p.id with
      | false => simp [hpid]
      | true => exact absurd ⟨eq_of_beq hr, eq_of_beq hpid⟩ hp
  have h2 : (p.role == Role.doctor && appt.doctor_id == p.id) = false := by
    cases hr : p.role == Role.doctor with
    | false => simp [hr]
    | true =>
      cases hdid : appt.doctor_id == p.id with
      | false => simp [hdid]
      | true => exact absurd ⟨eq_of_beq hr, eq_of_beq hdid⟩ hd
  unfold cancel_appointment
  rw [hfd]
  simp [h1, h2]

/-- Witness for C7: a different patient (id 2) attempting to cancel the
demo patient's appointment receives the forbidden outcome and the state is
unchanged. -/
theorem C7_forbidden_cancel_witness :
    findAppt demo_state 1 = some demo_appt ∧
    ¬((Principal.mk .patient 2).role = Role.patient ∧
      demo_appt.patient_id = (Principal.mk .patient 2).id) ∧
    ¬((Principal.mk .patient 2).role = Role.doctor ∧
      demo_appt.doctor_id = (Principal.mk .patient 2).id) ∧
    cancel_appointment demo_state 1 ⟨.patient, 2⟩ = (.forbidden, demo_state)
      :=
  ⟨by decide, by decide, by decide,
    C7_forbidden_cancel demo_state 1 ⟨.patient, 2⟩ demo_appt (by decide)
      (by decide) (by decide)⟩

/-- C10: the booking handler never reads the requesting patient's blacklist
flag (that flag is checked at login only), so flipping it changes neither
the booking outcome nor the ledger the booking produces. -/
theorem C10_blacklist_noninterference (s : ClinicState) (pid did : Nat)
    (d : Date) (t : Time) (b : Bool) :
    (book_appointment (setPatientBlacklist s pid b) pid did d t).1 =
      (book_appointment s pid did d t).1 ∧
    (book_appointment (setPatientBlacklist s pid b) pid did d t).2.appointments
      = (book_appointment s pid did d t).2.appointments := by
  have hfd : findDoctor (setPatientBlacklist s pid b) did =
      findDoctor s did := rfl
  have hfa : findAvail (setPatientBlacklist s pid b) did d =
      findAvail s did d := rfl
  have hfb : findBooked (setPatientBlacklist s pid b) did d t =
      findBooked s did d t := rfl
  unfold book_appointment
  rw [hfd, hfa, hfb]
  cases findDoctor s did with
  | none => exact ⟨rfl, rfl⟩
  | some doc =>
    dsimp only
    by_cases hbl : doc.is_blacklisted = true
    · rw [if_pos hbl, if_pos hbl]
      exact ⟨rfl, rfl⟩
    · rw [if_neg hbl, if_neg hbl]
      by_cases hw : (!(is_doctor_working (findAvail s did d) t)) = true
      · rw [if_pos hw, if_pos hw]
        exact ⟨rfl, rfl⟩
      · rw [if_neg hw, if_neg hw]
        cases findBooked s did d t with
        | some a => exact ⟨rfl, rfl⟩
        | none => exact ⟨rfl, rfl⟩

/-- C8: the availability write is an idempotent upsert preserving
uniqueness: starting from at most one record per (doctor, date), after
`setAvailability` exactly one record exists for the touched key and it
carries the two submitted flags, every other key's records are unchanged,
the at-most-one-per-key property still holds, and running the identical
call a second time leaves the state equal to the state after the first. -/
theorem C8_setAvailability_idempotent_upsert (s : ClinicState) (did : Nat)
    (d : Date) (m e : Bool) (hu : AvailUniqueList s.availability) :
    availFor (setAvailability s did d m e).availability did d =
      [⟨did, d, m, e⟩] ∧
    (∀ did' d', ¬(did' = did ∧ d' = d) →
      availFor (setAvailability s did d m e).availability did' d' =
        availFor s.availability did' d') ∧
    AvailUniqueList (setAvailability s did d m e).availability ∧
    setAvailability (setAvailability s did d m e) did d m e =
      setAvailability s did d m e := by
  refine ⟨availFor_upsert_self s.availability did d m e hu,
    fun did' d' hne => availFor_upsert_other s.availability did d m e did'
      d' hne,
    availUnique_upsertAvail s.availability did d m e hu, ?_⟩
  unfold setAvailability
  dsimp only
  rw [upsertAvail_idem]

/-- Witness for C8 at a concrete state with an empty availability table. -/
theorem C8_setAvailability_idempotent_upsert_witness :
    AvailUniqueList no_avail_state.availability ∧
    (availFor (setAvailability no_avail_state 1 demo_date true
        false).availability 1 demo_date = [⟨1, demo_date, true, false⟩] ∧
      (∀ did' d', ¬(did' = 1 ∧ d' = demo_date) →
        availFor (setAvailability no_avail_state 1 demo_date true
          false).availability did' d' =
          availFor no_avail_state.availability did' d') ∧
      AvailUniqueList (setAvailability no_avail_state 1 demo_date true
        false).availability ∧
      setAvailability (setAvailability no_avail_state 1 demo_date true
        false) 1 demo_date true false =
        setAvailability no_avail_state 1 demo_date true false) :=
  ⟨by decide,
    C8_setAvailability_idempotent_upsert no_avail_state 1 demo_date true
      false (by decide)⟩

/-- Under the at-most-one-record-per-key invariant, the grid's last-wins
dict lookup over the doctor-and-horizon filtered settings agrees with the
first-match query for the doctor and a day of the horizon. -/
lemma dict_lookup_filter_eq_find (l : List DoctorAvailability) (did : Nat)
    (range : List Date) (day : Date) (hu : AvailUniqueList l)
    (hday : day ∈ range) :
    dict_lookup (l.filter (fun a => a.doctor_id == did &&
      range.contains a.date)) day =
    l.find? (fun a => a.doctor_id == did && a.date == day) := by
  induction l with
  | nil => rfl
  | cons a rest ih =>
    unfold AvailUniqueList at hu
    rw [List.pairwise_cons] at hu
    obtain ⟨ha, hrest⟩ := hu
    by_cases h : (a.doctor_id == did && a.date == day) = true
    · have h' := h
      rw [Bool.and_eq_true] at h'
      have hdid : a.doctor_id = did := eq_of_beq h'.1
      have hdate : a.date = day := eq_of_beq h'.2
      have hcont : range.contains a.date = true := by
        rw [hdate]
        simp only [List.contains, List.elem_eq_mem, decide_eq_true_eq]
        exact hday
      rw [@List.find?_cons_of_pos _
        (fun x => x.doctor_id == did && x.date == day) a rest h]
      unfold dict_lookup
      rw [List.filter_cons,
        if_pos (by rw [Bool.and_eq_true]; exact ⟨h'.1, hcont⟩),
        List.filter_cons, if_pos (by rw [hdate]; simp)]
      have hnil : (rest.filter (fun x => x.doctor_id == did &&
          range.contains x.date)).filter (fun x => x.date == day) = [] := by
        rw [List.filter_eq_nil_iff]
        intro x hx hqx
        rw [List.mem_filter] at hx
        have hx2 := hx.2
        rw [Bool.and_eq_true] at hx2
        exact ha x hx.1 ⟨hdid.trans (eq_of_beq hx2.1).symm,
          hdate.trans (eq_of_beq hqx).symm⟩
      rw [hnil]
      rfl
    · rw [@List.find?_cons_of_neg _
        (fun x => x.doctor_id == did && x.date == day) a rest h]
      have ihr := ih hrest
      unfold dict_lookup at ihr ⊢
      by_cases hpre : (a.doctor_id == did && range.contains a.date) = true
      · rw [List.filter_cons, if_pos hpre, List.filter_cons, if_neg, ihr]
        intro hdeq
        apply h
        rw [Bool.and_eq_true] at hpre ⊢
        exact ⟨hpre.1, hdeq⟩
      · rw [List.filter_cons, if_neg hpre, ihr]

/-- Membership of a (day, slot time) pair in the grid's booked-slots list is
the existence of a `'Booked'` row at that exact key, for any day of the
horizon. -/
lemma booked_contains_eq_any (l : List Appointment) (did : Nat)
    (range : List Date) (day : Date) (t : Time) (hday : day ∈ range) :
    ((l.filter (fun a => a.doctor_id == did && range.contains a.date &&
      a.status == "Booked")).map (fun a => (a.date, a.time))).contains
      (day, t) =
    l.any (fun a => a.doctor_id == did && a.date == day && a.time == t &&
      a.status == "Booked") := by
  rw [Bool.eq_iff_iff]
  simp only [List.contains, List.elem_eq_mem, decide_eq_true_eq,
    List.mem_map, List.mem_filter, List.any_eq_true, Bool.and_eq_true,
    beq_iff_eq]
  constructor
  · rintro ⟨a, ⟨hmem, ⟨⟨h1, h2⟩, h3⟩⟩, hfa⟩
    have hd : day = a.date := congrArg Prod.fst hfa.symm
    have ht : t = a.time := congrArg Prod.snd hfa.symm
    exact ⟨a, hmem, ⟨⟨⟨h1, hd.symm⟩, ht.symm⟩, h3⟩⟩
  · rintro ⟨a, hmem, ⟨⟨⟨h1, h2⟩, h3⟩, h4⟩⟩
    refine ⟨a, ⟨hmem, ⟨⟨h1, ?_⟩, h4⟩⟩, ?_⟩
    · rw [h2]; exact hday
    · rw [h2, h3]

/-- One cell of the grid equals the spec's conjunction
`isWorking && !isBooked` at the corresponding shift. -/
lemma grid_cell_eq (s : ClinicState) (did : Nat) (range : List Date)
    (day : Date) (sh : Shift) (t : Time) (ht : t = sh.startTime)
    (hu : AvailUniqueList s.availability) (hday : day ∈ range) :
    (cell_is_working (dict_lookup (s.availability.filter
        (fun a => a.doctor_id == did && range.contains a.date)) day) t &&
      !(((s.appointments.filter (fun a => a.doctor_id == did &&
        range.contains a.date && a.status == "Booked")).map
        (fun a => (a.date, a.time))).contains (day, t))) =
    (isWorkingShift s did day sh && !(isBookedShift s did day sh)) := by
  subst ht
  rw [dict_lookup_filter_eq_find s.availability did range day hu hday,
    booked_contains_eq_any s.appointments did range day sh.startTime hday]
  congr 1
  rw [isWorkingShift_eq]
  show cell_is_working (findAvail s did day) sh.startTime =
    is_doctor_working (findAvail s did day) sh.startTime
  cases findAvail s did day with
  | none => rfl
  | some a => rfl

/-- A (day, t) pair is absent from the grid's booked-slots list whenever no
`'Booked'` row of the doctor carries exactly the time `t`. -/
lemma contains_booked_false (l : List Appointment) (did : Nat)
    (range : List Date) (day : Date) (t : Time)
    (h : ∀ a ∈ l, a.doctor_id = did → a.status = "Booked" → a.time ≠ t) :
    ((l.filter (fun a => a.doctor_id == did && range.contains a.date &&
      a.status == "Booked")).map (fun a => (a.date, a.time))).contains
      (day, t) = false := by
  simp only [List.contains, List.elem_eq_mem, List.mem_map, List.mem_filter,
    Bool.and_eq_true, beq_iff_eq, decide_eq_false_iff_not]
  rintro ⟨a, ⟨hmem, ⟨⟨h1, h2⟩, h3⟩⟩, hfa⟩
  have ht : t = a.time := congrArg Prod.snd hfa.symm
  exact h a hmem h1 h3 ht.symm

/-- After dropping every `'Booked'` row, the grid's booked-slots list is
empty, so membership of any pair is false. -/
lemma contains_dropBooked_false (l : List Appointment) (did : Nat)
    (range : List Date) (x : Date × Time) :
    (((l.filter (fun a => !(a.status == "Booked"))).filter
      (fun a => a.doctor_id == did && range.contains a.date &&
        a.status == "Booked")).map (fun a => (a.date, a.time))).contains x
      = false := by
  simp only [List.contains, List.elem_eq_mem, List.mem_map, List.mem_filter,
    Bool.and_eq_true, beq_iff_eq, Bool.not_eq_true', beq_eq_false_iff_ne,
    decide_eq_false_iff_not]
  rintro ⟨a, ⟨⟨⟨hmem, hne⟩, ⟨⟨h1, h2⟩, h3⟩⟩, hfa⟩⟩
  exact hne h3

/-- C4: for every doctor and every horizon, the resolved availability grid
is exactly the per-day, per-shift conjunction `isWorking && !isBooked`,
where `isWorking` is the stored flag of the matching shift (false when no
record exists for the date) and `isBooked` is the existence of a `'Booked'`
row at the (doctor, date, shift start time) key — hence a cell with
`isWorking` false is never available. -/
theorem C4_grid_is_conjunction (s : ClinicState) (did : Nat)
    (range : List Date) (hu : AvailUniqueList s.availability) :
    availability_grid s did range = range.map (fun day =>
      { date := day,
        slots := [Shift.Morning, Shift.Evening].map (fun sh =>
          { time := sh.startTime,
            is_available := isWorkingShift s did day sh &&
              !(isBookedShift s did day sh) }) }) := by
  unfold availability_grid
  dsimp only
  apply List.map_congr_left
  intro day hday
  simp only [standard_slots, List.map_cons, List.map_nil]
  rw [grid_cell_eq s did range day Shift.Morning ⟨8, 0, 0⟩ rfl hu hday,
    grid_cell_eq s did range day Shift.Evening ⟨16, 0, 0⟩ rfl hu hday]
  rfl

/-- Witness for C4 at the demo state over a one-day horizon. -/
theorem C4_grid_is_conjunction_witness :
    AvailUniqueList demo_state.availability ∧
    availability_grid demo_state 1 [demo_date] = [demo_date].map (fun day =>
      { date := day,
        slots := [Shift.Morning, Shift.Evening].map (fun sh =>
          { time := sh.startTime,
            is_available := isWorkingShift demo_state 1 day sh &&
              !(isBookedShift demo_state 1 day sh) }) }) :=
  ⟨by decide, C4_grid_is_conjunction demo_state 1 [demo_date] (by decide)⟩

/-- C9: a `'Booked'` appointment whose stored time is not exactly 08:00:00
or 16:00:00 never marks any grid cell as booked — the grid for a doctor
whose only `'Booked'` rows carry off-grid times is identical to the grid
computed after dropping every `'Booked'` row, so those cells still show
available whenever the doctor is working. -/
theorem C9_offgrid_booked_invisible (s : ClinicState) (did : Nat)
    (range : List Date)
    (hoff : ∀ a ∈ s.appointments, a.doctor_id = did →
      a.status = "Booked" → a.time ≠ ⟨8, 0, 0⟩ ∧ a.time ≠ ⟨16, 0, 0⟩) :
    availability_grid s did range =
      availability_grid (dropBooked s) did range := by
  unfold availability_grid dropBooked
  dsimp only
  apply List.map_congr_left
  intro day hday
  congr 1
  simp only [standard_slots, List.map_cons, List.map_nil]
  rw [contains_booked_false s.appointments did range day ⟨8, 0, 0⟩
      (fun a ha h1 h2 => (hoff a ha h1 h2).1),
    contains_booked_false s.appointments did range day ⟨16, 0, 0⟩
      (fun a ha h1 h2 => (hoff a ha h1 h2).2),
    contains_dropBooked_false s.appointments did range (day, ⟨8, 0, 0⟩),
    contains_dropBooked_false s.appointments did range (day, ⟨16, 0, 0⟩)]

/-- Witness for C9: with the seeded 08:12 `'Booked'` appointment, the grid
over the demo day equals the grid with the booked row dropped. -/
theorem C9_offgrid_booked_invisible_witness :
    (∀ a ∈ seeded_state.appointments, a.doctor_id = 1 →
      a.status = "Booked" → a.time ≠ ⟨8, 0, 0⟩ ∧ a.time ≠ ⟨16, 0, 0⟩) ∧
    availability_grid seeded_state 1 [demo_date] =
      availability_grid (dropBooked seeded_state) 1 [demo_date] :=
  ⟨by decide,
    C9_offgrid_booked_invisible seeded_state 1 [demo_date] (by decide)⟩

end Hospital
